import Mathlib

/-!
Formal model of the BirdWeather fetch/sync/aggregation module
(`fetch_data.py` and `data_store.py`).

Modelling conventions:
* A Polars `DataFrame` of a fixed record kind is a `List` of a typed row
  structure; the row fields are exactly the columns the Python code builds.
* A Parquet cache file is an `Option (List row)`: `none` means the file does
  not exist, `some rows` is its content.
* UTC timestamps are modelled as seconds since the epoch (`Nat`); the string
  parsing done by `datetime.fromisoformat` is modelled away, comparisons on
  parsed datetimes coincide with comparisons on these naturals.
* Floating point values that no claim computes with are modelled as `ℚ`.
* The GraphQL transport is modelled by the sequence of per-attempt outcomes
  (`Nat → AttemptOutcome`), and the server-side cursor pagination by the
  sequence of pages (`Nat → Page`) it would produce.
* Polars calls with unspecified row order (`unique` without
  `maintain_order`, `sort` between equal keys) are modelled by one concrete
  admissible order; no theorem below depends on the choice except where the
  call's contract pins it down.  `unique` with the *default* `keep="any"`
  (in `sync_species_meta`) is deliberately kept relational, see
  `isPolarsUniqueAnyBySpeciesId`.
-/

namespace BirdWeather

/-- One detection row: the node fields exactly as `get_detections` flattens
them (`data_store.py` caches these rows unchanged, so the same type serves
for API nodes and cached rows). -/
structure DetRow where
  id : String
  timestamp : Nat
  speciesId : String
  commonName : String
  scientificName : String
  confidence : ℚ
  probability : Option ℚ
  score : ℚ
  certainty : String
  deriving DecidableEq

/-- Model of `df.unique(subset=[key], keep="last")`: for each key keep the
last-occurring row.  Polars leaves the row order of `unique` unspecified
(`maintain_order` defaults to `False`); we keep scan order, and every use in
the source re-sorts immediately afterwards. -/
def dedupKeepLastBy {α κ : Type} [DecidableEq κ] (key : α → κ) : List α → List α
  | [] => []
  | a :: l =>
      if l.any (fun b => key b = key a) then dedupKeepLastBy key l
      else a :: dedupKeepLastBy key l

/-- Drop every row whose key was already seen (`seen` accumulates the keys
kept so far). -/
def dedupSeen {α κ : Type} [DecidableEq κ] (key : α → κ) :
    List κ → List α → List α
  | _, [] => []
  | seen, a :: l =>
      if key a ∈ seen then dedupSeen key seen l
      else a :: dedupSeen key (key a :: seen) l

/-- Keep the first-occurring row for each key (first-seen-wins dedup).  Used
to model group-by key extraction and as one admissible realisation of
`unique(keep="any")`. -/
def dedupKeepFirstBy {α κ : Type} [DecidableEq κ] (key : α → κ)
    (l : List α) : List α :=
  dedupSeen key [] l

/-- Comparison used by `combined.sort("timestamp")`. -/
def tsLE (a b : DetRow) : Prop := a.timestamp ≤ b.timestamp

instance : DecidableRel tsLE :=
  fun a b => inferInstanceAs (Decidable (a.timestamp ≤ b.timestamp))

instance : IsTotal DetRow tsLE := ⟨fun a b => Nat.le_total a.timestamp b.timestamp⟩

instance : IsTrans DetRow tsLE := ⟨fun _ _ _ hab hbc => Nat.le_trans hab hbc⟩

/-- The merge step of `sync_detections` (`data_store.py`, lines 94-112).
`cache` is the Parquet file (`none` = file absent), `newData` the result of
the `get_detections` call.  The schema-alignment loop of the source is the
identity here because both sides carry the full typed `DetRow` schema. -/
def merge_detections (cache : Option (List DetRow)) (newData : List DetRow) :
    List DetRow :=
  match cache with
  | some existing =>
      if 0 < existing.length then
        if 0 < newData.length then
          List.insertionSort tsLE
            (dedupKeepLastBy (fun r : DetRow => r.id) (existing ++ newData))
        else existing
      else if 0 < newData.length then List.insertionSort tsLE newData else newData
  | none => if 0 < newData.length then List.insertionSort tsLE newData else newData

/-- Model of `sync_detections` (`data_store.py`, lines 43-117) as a function of the
cache file and of the fetched rows.  Returns the value the Python function
returns together with the cache file afterwards (`write_parquet` happens
only when the merged table is non-empty). -/
def sync_detections (cache : Option (List DetRow)) (newData : List DetRow) :
    List DetRow × Option (List DetRow) :=
  let combined := merge_detections cache newData
  (combined, if 0 < combined.length then some combined else cache)

/-- One row of the species-probability table (`speciesId`, `commonName`,
`week`, `probability`). -/
structure ProbRow where
  speciesId : String
  commonName : String
  week : Nat
  probability : ℚ
  deriving DecidableEq

/-- Result of one `sync_species_probabilities` run: the returned table, the
cache file afterwards, and whether the remote API was queried. -/
structure SyncProbsResult where
  result : List ProbRow
  file : Option (List ProbRow)
  networkCalled : Bool
  deriving DecidableEq

/-- Model of `sync_species_probabilities` (`data_store.py`, lines 248-272).  The
cache file is modelled with its age in seconds (`now - mtime`); `fetched`
is what `get_species_probabilities` would return if called. -/
def sync_species_probabilities (cache : Option (List ProbRow × Nat))
    (fetched : List ProbRow) : SyncProbsResult :=
  match cache with
  | some (rows, age) =>
      if age < 7 * 86400 then ⟨rows, some rows, false⟩
      else ⟨fetched, if 0 < fetched.length then some fetched else some rows, true⟩
  | none => ⟨fetched, if 0 < fetched.length then some fetched else none, true⟩

/-- One species-metadata row (the `meta_cols` of `sync_species_meta`; all
columns except the key are nullable). -/
structure MetaRow where
  speciesId : String
  commonName : Option String
  scientificName : Option String
  imageUrl : Option String
  thumbnailUrl : Option String
  color : Option String
  ebirdUrl : Option String
  wikipediaSummary : Option String
  deriving DecidableEq

/-- Contract of `df.unique(subset=["speciesId"])` with the default
`keep="any"` (the dedup used by `sync_species_meta`, `data_store.py`
line 236): the output has pairwise-distinct `speciesId` values, every
output row is drawn from the input, and every input `speciesId` is still
represented.  Which of several rows sharing a `speciesId` survives is left
unspecified by Polars, so the call is modelled as this relation rather
than as a function. -/
def isPolarsUniqueAnyBySpeciesId (l out : List MetaRow) : Prop :=
  ((out.map (fun r => r.speciesId)).Nodup) ∧
  (∀ r ∈ out, r ∈ l) ∧
  (∀ r ∈ l, ∃ s ∈ out, s.speciesId = r.speciesId)

instance (l out : List MetaRow) : Decidable (isPolarsUniqueAnyBySpeciesId l out) :=
  inferInstanceAs (Decidable (_ ∧ _ ∧ _))

/-- Outcome of one HTTP attempt inside `query_graphql`: a transient
transport failure (`requests` timeout / connection error), an HTTP error
status (`raise_for_status`), a 200 response whose JSON carries a GraphQL
`errors` payload, or a successful response carrying `data`. -/
inductive AttemptOutcome where
  | transient : AttemptOutcome
  | httpError : AttemptOutcome
  | graphqlErrors : String → AttemptOutcome
  | success : String → AttemptOutcome
  deriving DecidableEq

/-- How `query_graphql` terminates. -/
inductive QueryError where
  | transport : QueryError
  | http : QueryError
  | fatal : String → QueryError
  deriving DecidableEq

/-- The retry loop of `query_graphql` (`fetch_data.py`, lines 41-55).
`attempt` is the 0-based index of the current attempt, the second argument
the number of attempts still allowed.  Returns the outcome together with
the list of back-off sleeps performed (in seconds, in order).  Falling out
of the loop without any attempt (`retries = 0`) returns Python's implicit
`None`, modelled as `.ok none`. -/
def queryLoop (outcomes : Nat → AttemptOutcome) :
    Nat → Nat → Except QueryError (Option String) × List Nat
  | _, 0 => (.ok none, [])
  | attempt, remaining + 1 =>
      match outcomes attempt with
      | .success d => (.ok (some d), [])
      | .graphqlErrors e => (.error (.fatal e), [])
      | .httpError => (.error .http, [])
      | .transient =>
          if remaining = 0 then (.error .transport, [])
          else
            let p := queryLoop outcomes (attempt + 1) remaining
            (p.1, 2 ^ attempt :: p.2)

/-- Model of `query_graphql(query, variables, retries)` (`fetch_data.py`,
lines 29-55), abstracted over the per-attempt transport outcomes. -/
def query_graphql (outcomes : Nat → AttemptOutcome) (retries : Nat) :
    Except QueryError (Option String) × List Nat :=
  queryLoop outcomes 0 retries

/-- The exponential back-off sleeps after `k` transient failures starting
at attempt index `a`: `2^a, 2^(a+1), ...`. -/
def backoffsFrom (a k : Nat) : List Nat := (List.range k).map (fun i => 2 ^ (a + i))

/-- Back-off sleeps of a run whose first `k` attempts fail transiently. -/
def backoffs (k : Nat) : List Nat := backoffsFrom 0 k

/-- The two stop conditions of the `get_detections` node loop
(`fetch_data.py`, lines 570-577): a row at or before `stop_before`, or a
row strictly before the parsed `earliest_detection_at`. -/
def stopsAt (stopBefore earliest : Option Nat) (ts : Nat) : Bool :=
  (match stopBefore with
   | some t => decide (ts ≤ t)
   | none => false) ||
  (match earliest with
   | some e => decide (ts < e)
   | none => false)

/-- The inner `for node in nodes` loop of `get_detections`: accumulate rows
until a node hits a stop condition; the `Bool` is the `hit_boundary` flag. -/
def scanNodes (sb ea : Option Nat) : List DetRow → List DetRow × Bool
  | [] => ([], false)
  | n :: ns =>
      if stopsAt sb ea n.timestamp then ([], true)
      else
        let p := scanNodes sb ea ns
        (n :: p.1, p.2)

/-- One page of the cursor-paginated detections listing. -/
structure Page where
  nodes : List DetRow
  hasNextPage : Bool

/-- The page loop of `get_detections` (`fetch_data.py`, lines 549-593):
stop on an empty page, on a hit boundary, on `hasNextPage = False`, or when
`max_pages` is exhausted. -/
def getDetectionsLoop (pages : Nat → Page) (sb ea : Option Nat) :
    Nat → Nat → List DetRow
  | _, 0 => []
  | pageNum, fuel + 1 =>
      let pg := pages pageNum
      if pg.nodes.length = 0 then []
      else
        let s := scanNodes sb ea pg.nodes
        if s.2 || !pg.hasNextPage then s.1
        else s.1 ++ getDetectionsLoop pages sb ea (pageNum + 1) fuel

/-- The row list accumulated by `get_detections(station_id, page_size,
max_pages, stop_before, earliest_detection_at)`. -/
def get_detections (pages : Nat → Page) (maxPages : Nat)
    (stopBefore earliest : Option Nat) : List DetRow :=
  getDetectionsLoop pages stopBefore earliest 0 maxPages

/-- Polars column dtypes that appear in the module's explicit schemas. -/
inductive DType where
  | utf8 : DType
  | int64 : DType
  | float64 : DType
  | dateT : DType
  | datetimeT : DType
  deriving DecidableEq

/-- A cell value.  `vint` also carries datetime/date cells (epoch seconds /
epoch days) and `vfloat` carries Float64 cells. -/
inductive Value where
  | vstr : String → Value
  | vint : Int → Value
  | vfloat : ℚ → Value
  | vnull : Value
  deriving DecidableEq

/-- A Polars `DataFrame` at schema level: the named, typed columns and the
row values.  `pl.DataFrame([])` is `⟨[], []⟩` — zero rows, zero columns. -/
structure Frame where
  schema : List (String × DType)
  rows : List (List Value)
  deriving DecidableEq

def vOptStr : Option String → Value
  | some s => .vstr s
  | none => .vnull

def vOptFloat : Option ℚ → Value
  | some q => .vfloat q
  | none => .vnull

/-- The explicit empty schema of `get_detections` (`fetch_data.py`,
lines 598-611); note `timestamp` is `Utf8` in the empty branch (the
string-to-datetime cast only runs on non-empty data). -/
def detectionsEmptySchema : List (String × DType) :=
  [("id", .utf8), ("timestamp", .utf8), ("speciesId", .utf8),
   ("commonName", .utf8), ("scientificName", .utf8), ("confidence", .float64),
   ("probability", .float64), ("score", .float64), ("certainty", .utf8)]

/-- Schema of a non-empty `get_detections` result (after
`str.to_datetime`). -/
def detectionsSchema : List (String × DType) :=
  [("id", .utf8), ("timestamp", .datetimeT), ("speciesId", .utf8),
   ("commonName", .utf8), ("scientificName", .utf8), ("confidence", .float64),
   ("probability", .float64), ("score", .float64), ("certainty", .utf8)]

def detRowValues (r : DetRow) : List Value :=
  [.vstr r.id, .vint (r.timestamp : Int), .vstr r.speciesId, .vstr r.commonName,
   .vstr r.scientificName, .vfloat r.confidence, vOptFloat r.probability,
   .vfloat r.score, .vstr r.certainty]

/-- Model of `get_detections` at frame level: the explicitly-typed empty frame when
no node was accumulated, the materialised rows otherwise. -/
def get_detections_frame (pages : Nat → Page) (maxPages : Nat)
    (stopBefore earliest : Option Nat) : Frame :=
  let rows := get_detections pages maxPages stopBefore earliest
  if rows.length = 0 then ⟨detectionsEmptySchema, []⟩
  else ⟨detectionsSchema, rows.map detRowValues⟩

/-- One environment-sensor reading as returned by the API (all sensor
fields nullable; the timestamp arrives as a string). -/
structure EnvNode where
  timestamp : String
  temperature : Option ℚ
  humidity : Option ℚ
  barometricPressure : Option ℚ
  soundPressureLevel : Option ℚ
  aqi : Option ℚ
  eco2 : Option ℚ
  voc : Option ℚ
  deriving DecidableEq

structure EnvPage where
  nodes : List EnvNode
  hasNextPage : Bool

/-- The page loop of `get_environment_history` (`fetch_data.py`,
lines 395-408): accumulate every page's nodes until `hasNextPage` is false
or `max_pages` is exhausted. -/
def getEnvNodes (pages : Nat → EnvPage) : Nat → Nat → List EnvNode
  | _, 0 => []
  | i, fuel + 1 =>
      let pg := pages i
      pg.nodes ++ (if pg.hasNextPage then getEnvNodes pages (i + 1) fuel else [])

/-- Explicit empty schema of `get_environment_history` (lines 410-422). -/
def environmentEmptySchema : List (String × DType) :=
  [("timestamp", .utf8), ("temperature", .float64), ("humidity", .float64),
   ("barometricPressure", .float64), ("soundPressureLevel", .float64),
   ("aqi", .float64), ("eco2", .float64), ("voc", .float64)]

/-- Schema of a non-empty result (timestamp cast to datetime). -/
def environmentSchema : List (String × DType) :=
  [("timestamp", .datetimeT), ("temperature", .float64), ("humidity", .float64),
   ("barometricPressure", .float64), ("soundPressureLevel", .float64),
   ("aqi", .float64), ("eco2", .float64), ("voc", .float64)]

def envNodeValues (n : EnvNode) : List Value :=
  [.vstr n.timestamp, vOptFloat n.temperature, vOptFloat n.humidity,
   vOptFloat n.barometricPressure, vOptFloat n.soundPressureLevel,
   vOptFloat n.aqi, vOptFloat n.eco2, vOptFloat n.voc]

/-- Model of `get_environment_history` at frame level.  (In the non-empty branch the
`str.to_datetime` cast of the timestamp cells is not modelled; the cells
keep their string value, only the schema records the cast.) -/
def get_environment_history (pages : Nat → EnvPage) (maxPages : Nat) : Frame :=
  let nodes := getEnvNodes pages 0 maxPages
  if nodes.length = 0 then ⟨environmentEmptySchema, []⟩
  else ⟨environmentSchema, nodes.map envNodeValues⟩

/-- The `breakdown` sub-object of a `topSpecies` entry (nullable, with
nullable fields). -/
structure BreakdownResp where
  almostCertain : Option Int
  veryLikely : Option Int
  uncertain : Option Int
  unlikely : Option Int
  deriving DecidableEq

/-- The `species` sub-object of a `topSpecies` entry. -/
structure SpeciesResp where
  commonName : String
  scientificName : String
  imageUrl : Option String
  thumbnailUrl : Option String
  color : Option String
  ebirdUrl : Option String
  wikipediaSummary : Option String
  deriving DecidableEq

/-- One entry of the `topSpecies` GraphQL response. -/
structure TopSpeciesResp where
  speciesId : String
  count : Int
  averageProbability : Option ℚ
  breakdown : Option BreakdownResp
  species : SpeciesResp
  deriving DecidableEq

/-- Model of `(sp.get("breakdown") or ...).get(field, 0)`: the literal `0` default
fires only when `breakdown` itself is null/absent; a present-but-null field
stays null. -/
def bdField (bd : Option BreakdownResp) (f : BreakdownResp → Option Int) : Value :=
  match bd with
  | none => .vint 0
  | some b =>
      match f b with
      | some v => .vint v
      | none => .vnull

/-- Column names and nominal dtypes `pl.DataFrame(rows)` infers for a
non-empty `get_top_species` row list (dict-key order of lines 214-229). -/
def topSpeciesInferredSchema : List (String × DType) :=
  [("speciesId", .utf8), ("commonName", .utf8), ("scientificName", .utf8),
   ("imageUrl", .utf8), ("thumbnailUrl", .utf8), ("color", .utf8),
   ("ebirdUrl", .utf8), ("wikipediaSummary", .utf8), ("count", .int64),
   ("almostCertain", .int64), ("veryLikely", .int64), ("uncertain", .int64),
   ("unlikely", .int64), ("averageProbability", .float64)]

def topSpeciesRespValues (sp : TopSpeciesResp) : List Value :=
  [.vstr sp.speciesId, .vstr sp.species.commonName, .vstr sp.species.scientificName,
   vOptStr sp.species.imageUrl, vOptStr sp.species.thumbnailUrl,
   vOptStr sp.species.color, vOptStr sp.species.ebirdUrl,
   vOptStr sp.species.wikipediaSummary, .vint sp.count,
   bdField sp.breakdown (fun b => b.almostCertain),
   bdField sp.breakdown (fun b => b.veryLikely),
   bdField sp.breakdown (fun b => b.uncertain),
   bdField sp.breakdown (fun b => b.unlikely),
   vOptFloat sp.averageProbability]

/-- Model of `get_top_species` (`fetch_data.py`, lines 209-231): the rows are built
and handed to `pl.DataFrame(rows)` with **no** explicit schema, so an empty
listing yields the untyped `pl.DataFrame([])` — zero rows, zero columns. -/
def get_top_species (resp : List TopSpeciesResp) : Frame :=
  let rows := resp.map topSpeciesRespValues
  if rows.length = 0 then ⟨[], []⟩
  else ⟨topSpeciesInferredSchema, rows⟩

/-- One per-species count inside a day of the `dailyDetectionCounts`
response. -/
structure DayCountResp where
  speciesId : String
  count : Int
  commonName : String
  deriving DecidableEq

/-- One day of the `dailyDetectionCounts` response. -/
structure DayResp where
  date : String
  dayOfYear : Int
  total : Int
  counts : List DayCountResp
  deriving DecidableEq

/-- Explicit empty schema of `get_daily_detection_counts` (lines 280-290);
`date` is `Utf8` in the empty branch. -/
def dailyEmptySchema : List (String × DType) :=
  [("date", .utf8), ("dayOfYear", .int64), ("dailyTotal", .int64),
   ("speciesId", .utf8), ("commonName", .utf8), ("count", .int64)]

/-- Schema of a non-empty result (after `str.to_date`). -/
def dailyNonEmptySchema : List (String × DType) :=
  [("date", .dateT), ("dayOfYear", .int64), ("dailyTotal", .int64),
   ("speciesId", .utf8), ("commonName", .utf8), ("count", .int64)]

/-- Model of `get_daily_detection_counts` (`fetch_data.py`, lines 238-294) at frame
level.  (In the non-empty branch the `str.to_date` cast keeps the string
cell; only the schema records the cast.) -/
def get_daily_detection_counts (resp : List DayResp) : Frame :=
  let rows := resp.flatMap (fun day => day.counts.map (fun sp =>
    [Value.vstr day.date, .vint day.dayOfYear, .vint day.total,
     .vstr sp.speciesId, .vstr sp.commonName, .vint sp.count]))
  if rows.length = 0 then ⟨dailyEmptySchema, []⟩
  else ⟨dailyNonEmptySchema, rows⟩

/-- One hour bin of the `timeOfDayDetectionCounts` response. -/
structure TodBin where
  count : Int
  key : ℚ
  deriving DecidableEq

/-- One species entry of the `timeOfDayDetectionCounts` response. -/
structure TodResp where
  speciesId : String
  count : Int
  commonName : String
  bins : List TodBin
  deriving DecidableEq

/-- Explicit empty schema of `get_time_of_day_counts` (lines 339-348). -/
def timeOfDayEmptySchema : List (String × DType) :=
  [("speciesId", .utf8), ("commonName", .utf8), ("totalCount", .int64),
   ("hour", .float64), ("count", .int64)]

/-- Model of `get_time_of_day_counts` (`fetch_data.py`, lines 301-350) at frame
level. -/
def get_time_of_day_counts (resp : List TodResp) : Frame :=
  let rows := resp.flatMap (fun sp => sp.bins.map (fun b =>
    [Value.vstr sp.speciesId, .vstr sp.commonName, .vint sp.count,
     .vfloat b.key, .vint b.count]))
  if rows.length = 0 then ⟨timeOfDayEmptySchema, []⟩
  else ⟨timeOfDayEmptySchema, rows⟩

/-- One species entry of the `probabilities` response. -/
structure ProbResp where
  speciesId : String
  commonName : String
  weeks : List ℚ
  deriving DecidableEq

/-- Explicit empty schema of `get_species_probabilities` (lines 465-473). -/
def probsEmptySchema : List (String × DType) :=
  [("speciesId", .utf8), ("commonName", .utf8), ("week", .int64),
   ("probability", .float64)]

/-- Model of `get_species_probabilities` (`fetch_data.py`, lines 433-475) at frame
level; `week` is the zero-based `enumerate` index into `weeks`. -/
def get_species_probabilities (resp : List ProbResp) : Frame :=
  let rows := resp.flatMap (fun sp => sp.weeks.enum.map (fun p =>
    [Value.vstr sp.speciesId, .vstr sp.commonName, .vint (p.1 : Int),
     .vfloat p.2]))
  if rows.length = 0 then ⟨probsEmptySchema, []⟩
  else ⟨probsEmptySchema, rows⟩

/-- One aggregated row of `compute_top_species` before the metadata join
(the `agg` frame, `data_store.py`, lines 342-358). -/
structure TopAggRow where
  speciesId : String
  count : Nat
  averageProbability : Option ℚ
  commonName : String
  scientificName : String
  almostCertain : Nat
  veryLikely : Nat
  uncertain : Nat
  unlikely : Nat
  deriving DecidableEq

/-- Polars `mean` over a nullable column: nulls are ignored, an all-null
column yields null. -/
def listMean (l : List ℚ) : Option ℚ :=
  if l.length = 0 then none else some (l.sum / (l.length : ℚ))

/-- Comparison used by `.sort("count", descending=True)`. -/
def countDesc (a b : TopAggRow) : Prop := b.count ≤ a.count

instance : DecidableRel countDesc :=
  fun a b => inferInstanceAs (Decidable (b.count ≤ a.count))

/-- The explicitly-typed empty output schema of `compute_top_species`
(`data_store.py`, lines 305-323); identical to the final `col_order`
selection (lines 372-377). -/
def topSpeciesSchema : List (String × DType) :=
  [("speciesId", .utf8), ("commonName", .utf8), ("scientificName", .utf8),
   ("imageUrl", .utf8), ("thumbnailUrl", .utf8), ("color", .utf8),
   ("ebirdUrl", .utf8), ("wikipediaSummary", .utf8), ("count", .int64),
   ("almostCertain", .int64), ("veryLikely", .int64), ("uncertain", .int64),
   ("unlikely", .int64), ("averageProbability", .float64)]

/-- Model of `compute_top_species` (`data_store.py`, lines 279-380).  `now` stands
for `datetime.now(timezone.utc)`.  The left join takes the first matching
metadata row (cached metadata has unique `speciesId`); detections-derived
names win because the join drops the metadata name columns. -/
def compute_top_species (now : Nat) (detections : List DetRow)
    (species_meta : List MetaRow) (periodDays : Option Nat) (limit : Nat) :
    Frame :=
  if detections.length = 0 then ⟨topSpeciesSchema, []⟩
  else
    let df : List DetRow := match periodDays with
      | some d => detections.filter (fun r => decide (now - d * 86400 ≤ r.timestamp))
      | none => detections
    if df.length = 0 then ⟨topSpeciesSchema, []⟩
    else
      let sids := dedupKeepFirstBy (fun s : String => s)
        (df.map (fun r => r.speciesId))
      let agg := sids.map (fun sid =>
        let g := df.filter (fun r => decide (r.speciesId = sid))
        ({ speciesId := sid
           count := g.length
           averageProbability := listMean (g.filterMap (fun r => r.probability))
           commonName := (g.map (fun r => r.commonName)).headD ""
           scientificName := (g.map (fun r => r.scientificName)).headD ""
           almostCertain := g.countP (fun r => decide (r.certainty = "almost_certain"))
           veryLikely := g.countP (fun r => decide (r.certainty = "very_likely"))
           uncertain := g.countP (fun r => decide (r.certainty = "uncertain"))
           unlikely := g.countP (fun r => decide (r.certainty = "unlikely")) } : TopAggRow))
      let top := (List.insertionSort countDesc agg).take limit
      let joined := top.map (fun a =>
        let m := species_meta.find? (fun s => decide (s.speciesId = a.speciesId))
        [Value.vstr a.speciesId, .vstr a.commonName, .vstr a.scientificName,
         vOptStr (m.bind (fun s => s.imageUrl)),
         vOptStr (m.bind (fun s => s.thumbnailUrl)),
         vOptStr (m.bind (fun s => s.color)),
         vOptStr (m.bind (fun s => s.ebirdUrl)),
         vOptStr (m.bind (fun s => s.wikipediaSummary)),
         .vint (a.count : Int), .vint (a.almostCertain : Int),
         .vint (a.veryLikely : Int), .vint (a.uncertain : Int),
         .vint (a.unlikely : Int), vOptFloat a.averageProbability])
      ⟨topSpeciesSchema, joined⟩

/-- Gregorian leap year test (for `dt.ordinal_day`). -/
def isLeap (y : Nat) : Bool := (y % 4 == 0 && y % 100 != 0) || y % 400 == 0

/-- Walk forward from 1970 consuming whole years; the left-over day count
(0-based) plus one is the ordinal day of the year. -/
def ordinalDayAux : Nat → Nat → Nat → Nat
  | _, rem, 0 => rem + 1
  | y, rem, fuel + 1 =>
      let len := if isLeap y then 366 else 365
      if rem < len then rem + 1 else ordinalDayAux (y + 1) (rem - len) fuel

/-- Model of `pl.col("date").dt.ordinal_day()` on a date given as days since the
epoch. -/
def ordinalDay (days : Nat) : Nat := ordinalDayAux 1970 days days

/-- One row of the `species_daily` group-by (`data_store.py`,
lines 420-424). -/
structure DailySpeciesRow where
  date : Nat
  speciesId : String
  commonName : String
  count : Nat
  deriving DecidableEq

/-- One output row of `compute_daily_detection_counts`; `date` is days
since the epoch (`timestamp.dt.date()` = floor division by 86400). -/
structure DailyRow where
  date : Nat
  dayOfYear : Nat
  dailyTotal : Nat
  speciesId : String
  commonName : String
  count : Nat
  deriving DecidableEq

/-- Comparison used by `.sort("date", "commonName")`. -/
def dailyLE (a b : DailyRow) : Prop :=
  a.date < b.date ∨ (a.date = b.date ∧ a.commonName ≤ b.commonName)

instance : DecidableRel dailyLE :=
  fun a b => inferInstanceAs
    (Decidable (a.date < b.date ∨ (a.date = b.date ∧ a.commonName ≤ b.commonName)))

/-- The group-by key of `species_daily`: calendar date, species, name. -/
def dayKey (r : DetRow) : Nat × String × String :=
  (r.timestamp / 86400, r.speciesId, r.commonName)

/-- The optional `period_days` filter (`data_store.py`, lines 407-409). -/
def dailyFilter (now : Nat) (periodDays : Option Nat) (detections : List DetRow) :
    List DetRow :=
  match periodDays with
  | some d => detections.filter (fun r => decide (now - d * 86400 ≤ r.timestamp))
  | none => detections

/-- Model of `species_daily`: per (date, speciesId, commonName) group sizes.  Group
keys are enumerated in first-occurrence order (Polars leaves group order
unspecified; the function ends with an explicit sort). -/
def dailySpeciesOf (df : List DetRow) : List DailySpeciesRow :=
  (dedupKeepFirstBy (fun k : Nat × String × String => k) (df.map dayKey)).map
    (fun k =>
      ({ date := k.1, speciesId := k.2.1, commonName := k.2.2,
         count := (df.filter (fun r => decide (dayKey r = k))).length } :
        DailySpeciesRow))

/-- Sum of the per-species counts of one date in `species_daily`. -/
def dailySum (sd : List DailySpeciesRow) (d : Nat) : Nat :=
  ((sd.filter (fun s => decide (s.date = d))).map (fun s => s.count)).sum

/-- Model of `daily_totals`: per-date sums of the `species_daily` counts
(`data_store.py`, lines 427-431). -/
def dailyTotalsOf (sd : List DailySpeciesRow) : List (Nat × Nat) :=
  (dedupKeepFirstBy (fun d : Nat => d) (sd.map (fun s => s.date))).map
    (fun d => (d, dailySum sd d))

/-- The left join of `species_daily` with `daily_totals` plus the
`dayOfYear` column (`data_store.py`, lines 434-441). -/
def dailyJoinRow (sd : List DailySpeciesRow) (s : DailySpeciesRow) : DailyRow :=
  { date := s.date, dayOfYear := ordinalDay s.date,
    dailyTotal := (((dailyTotalsOf sd).find?
      (fun p => decide (p.1 = s.date))).map (fun p => p.2)).getD 0,
    speciesId := s.speciesId, commonName := s.commonName, count := s.count }

def dailyJoin (sd : List DailySpeciesRow) : List DailyRow :=
  sd.map (dailyJoinRow sd)

/-- Model of `compute_daily_detection_counts` (`data_store.py`, lines 383-444); the
typed empty frames of the source's empty branches are the empty row list
here. -/
def compute_daily_detection_counts (now : Nat) (detections : List DetRow)
    (periodDays : Option Nat) : List DailyRow :=
  if detections.length = 0 then []
  else if (dailyFilter now periodDays detections).length = 0 then []
  else
    List.insertionSort dailyLE
      (dailyJoin (dailySpeciesOf (dailyFilter now periodDays detections)))

/-! Concrete sample data for evaluating the model on closed inputs. -/

def sampleRowA : DetRow := ⟨"a", 5, "s1", "Robin", "T. migratorius", 0, none, 0, "uncertain"⟩

/-- Same `id` as `sampleRowA`, earlier timestamp. -/
def sampleRowA2 : DetRow := ⟨"a", 3, "s1", "Robin", "T. migratorius", 0, none, 0, "uncertain"⟩

def sampleN1 : DetRow := ⟨"x", 30, "s1", "Robin", "T. migratorius", 0, none, 0, "uncertain"⟩

def sampleN2 : DetRow := ⟨"y", 10, "s1", "Robin", "T. migratorius", 0, none, 0, "uncertain"⟩

def sampleN3 : DetRow := ⟨"z", 50, "s1", "Robin", "T. migratorius", 0, none, 0, "uncertain"⟩

/-- A server whose first page holds `sampleN1, sampleN2, sampleN3`
(newest-first would be violated by `sampleN3`, which the stop condition
must therefore exclude together with `sampleN2`). -/
def samplePages : Nat → Page :=
  fun i => if i = 0 then ⟨[sampleN1, sampleN2, sampleN3], true⟩ else ⟨[], false⟩

/-- A server that immediately returns an empty page. -/
def emptyPages : Nat → Page := fun _ => ⟨[], false⟩

/-- An environment server that immediately signals no further pages. -/
def emptyEnvPages : Nat → EnvPage := fun _ => ⟨[], false⟩

/-- Transport trace: one timeout, then a GraphQL error payload. -/
def sampleOutcomes : Nat → AttemptOutcome :=
  fun i => if i = 0 then .transient else .graphqlErrors "bad query"

def sampleProbRow : ProbRow := ⟨"s1", "Robin", 0, 1/2⟩

/-- The single output row `compute_daily_detection_counts` produces on
`[sampleRowA]`. -/
def sampleDailyRow : DailyRow := ⟨0, 1, 1, "s1", "Robin", 1⟩

def bulkMetaRow : MetaRow :=
  ⟨"sp1", some "Bulk Name", none, none, none, none, none, none⟩

/-- Same `speciesId` as `bulkMetaRow`, different metadata. -/
def residualMetaRow : MetaRow :=
  ⟨"sp1", some "Residual Name", none, none, none, none, none, none⟩

/-! Helper lemmas about the dedup primitives. -/

theorem dedupKeepLastBy_sublist {α κ : Type} [DecidableEq κ] (key : α → κ)
    (l : List α) : List.Sublist (dedupKeepLastBy key l) l := by
  induction l with
  | nil => simp [dedupKeepLastBy]
  | cons a l ih =>
    rw [dedupKeepLastBy]
    split
    · exact ih.cons a
    · exact ih.cons₂ a

theorem nodup_keys_dedupKeepLastBy {α κ : Type} [DecidableEq κ] (key : α → κ)
    (l : List α) : ((dedupKeepLastBy key l).map key).Nodup := by
  induction l with
  | nil => simp [dedupKeepLastBy]
  | cons a l ih =>
    rw [dedupKeepLastBy]
    split
    · exact ih
    · rename_i h
      simp only [List.map_cons, List.nodup_cons]
      refine ⟨fun hmem => ?_, ih⟩
      rw [List.mem_map] at hmem
      obtain ⟨b, hb, hkb⟩ := hmem
      have hbl : b ∈ l := (dedupKeepLastBy_sublist key l).subset hb
      exact h (List.any_eq_true.mpr ⟨b, hbl, by simp [hkb]⟩)

theorem mem_of_mem_dedupSeen {α κ : Type} [DecidableEq κ] (key : α → κ) :
    ∀ (l : List α) (seen : List κ) (x : α),
      x ∈ dedupSeen key seen l → x ∈ l := by
  intro l
  induction l with
  | nil =>
    intro seen x hx
    simp [dedupSeen] at hx
  | cons a t ih =>
    intro seen x hx
    rw [dedupSeen] at hx
    by_cases h : key a ∈ seen
    · rw [if_pos h] at hx
      exact List.mem_cons_of_mem a (ih seen x hx)
    · rw [if_neg h] at hx
      rcases List.mem_cons.mp hx with hx | hx
      · exact hx ▸ List.mem_cons_self a t
      · exact List.mem_cons_of_mem a (ih _ x hx)

theorem mem_of_mem_dedupKeepFirstBy {α κ : Type} [DecidableEq κ] (key : α → κ)
    (l : List α) (x : α) (hx : x ∈ dedupKeepFirstBy key l) : x ∈ l :=
  mem_of_mem_dedupSeen key l [] x hx

theorem key_not_seen_dedupSeen {α κ : Type} [DecidableEq κ] (key : α → κ) :
    ∀ (l : List α) (seen : List κ) (x : α),
      x ∈ dedupSeen key seen l → key x ∉ seen := by
  intro l
  induction l with
  | nil =>
    intro seen x hx
    simp [dedupSeen] at hx
  | cons a t ih =>
    intro seen x hx
    rw [dedupSeen] at hx
    by_cases h : key a ∈ seen
    · rw [if_pos h] at hx
      exact ih seen x hx
    · rw [if_neg h] at hx
      rcases List.mem_cons.mp hx with hx | hx
      · exact hx ▸ h
      · intro hmem
        exact ih _ x hx (List.mem_cons_of_mem _ hmem)

theorem nodup_keys_dedupSeen {α κ : Type} [DecidableEq κ] (key : α → κ) :
    ∀ (l : List α) (seen : List κ),
      ((dedupSeen key seen l).map key).Nodup := by
  intro l
  induction l with
  | nil =>
    intro seen
    simp [dedupSeen]
  | cons a t ih =>
    intro seen
    rw [dedupSeen]
    by_cases h : key a ∈ seen
    · rw [if_pos h]
      exact ih seen
    · rw [if_neg h]
      simp only [List.map_cons, List.nodup_cons]
      refine ⟨fun hmem => ?_, ih _⟩
      rw [List.mem_map] at hmem
      obtain ⟨b, hb, hkb⟩ := hmem
      exact key_not_seen_dedupSeen key t _ b hb (hkb ▸ List.mem_cons_self _ _)

theorem nodup_keys_dedupKeepFirstBy {α κ : Type} [DecidableEq κ] (key : α → κ)
    (l : List α) : ((dedupKeepFirstBy key l).map key).Nodup :=
  nodup_keys_dedupSeen key l []

theorem exists_key_dedupSeen {α κ : Type} [DecidableEq κ] (key : α → κ) :
    ∀ (l : List α) (seen : List κ) (x : α), x ∈ l → key x ∉ seen →
      ∃ y ∈ dedupSeen key seen l, key y = key x := by
  intro l
  induction l with
  | nil =>
    intro seen x hx _
    simp at hx
  | cons a t ih =>
    intro seen x hx hseen
    rw [dedupSeen]
    rcases List.mem_cons.mp hx with hx | hx
    · subst hx
      rw [if_neg hseen]
      exact ⟨x, List.mem_cons_self _ _, rfl⟩
    · by_cases h : key a ∈ seen
      · rw [if_pos h]
        exact ih seen x hx hseen
      · rw [if_neg h]
        by_cases hk : key x = key a
        · exact ⟨a, List.mem_cons_self _ _, hk.symm⟩
        · have hseen' : key x ∉ key a :: seen := by
            intro hmem
            rcases List.mem_cons.mp hmem with hmem | hmem
            · exact hk hmem
            · exact hseen hmem
          obtain ⟨y, hy, hky⟩ := ih _ x hx hseen'
          exact ⟨y, List.mem_cons_of_mem a hy, hky⟩

theorem exists_key_dedupKeepFirstBy {α κ : Type} [DecidableEq κ] (key : α → κ)
    (l : List α) (x : α) (hx : x ∈ l) :
    ∃ y ∈ dedupKeepFirstBy key l, key y = key x :=
  exists_key_dedupSeen key l [] x hx (by simp)

/-! Lemmas about the `get_detections` loops. -/

theorem scanNodes_no_stop (sb ea : Option Nat) :
    ∀ (ns : List DetRow) (r : DetRow), r ∈ (scanNodes sb ea ns).1 →
      stopsAt sb ea r.timestamp = false := by
  intro ns
  induction ns with
  | nil =>
    intro r hr
    simp [scanNodes] at hr
  | cons n ns ih =>
    intro r hr
    rw [scanNodes] at hr
    by_cases h : stopsAt sb ea n.timestamp = true
    · simp [h] at hr
    · rw [Bool.not_eq_true] at h
      simp only [h, Bool.false_eq_true, if_false] at hr
      rcases List.mem_cons.mp hr with rfl | hr
      · exact h
      · exact ih r hr

theorem scanNodes_mem (sb ea : Option Nat) :
    ∀ (ns : List DetRow) (r : DetRow), r ∈ (scanNodes sb ea ns).1 → r ∈ ns := by
  intro ns
  induction ns with
  | nil =>
    intro r hr
    simp [scanNodes] at hr
  | cons n ns ih =>
    intro r hr
    rw [scanNodes] at hr
    by_cases h : stopsAt sb ea n.timestamp = true
    · simp [h] at hr
    · rw [Bool.not_eq_true] at h
      simp only [h, Bool.false_eq_true, if_false] at hr
      rcases List.mem_cons.mp hr with rfl | hr
      · exact List.mem_cons_self _ _
      · exact List.mem_cons_of_mem _ (ih r hr)

theorem scanNodes_hit (sb ea : Option Nat) :
    ∀ ns : List DetRow, (∃ n ∈ ns, stopsAt sb ea n.timestamp = true) →
      (scanNodes sb ea ns).2 = true := by
  intro ns
  induction ns with
  | nil =>
    rintro ⟨n, hn, _⟩
    simp at hn
  | cons m ns ih =>
    rintro ⟨n, hn, hs⟩
    rw [scanNodes]
    by_cases h : stopsAt sb ea m.timestamp = true
    · simp [h]
    · rcases List.mem_cons.mp hn with rfl | hn'
      · exact absurd hs h
      · rw [Bool.not_eq_true] at h
        simp only [h, Bool.false_eq_true, if_false]
        exact ih ⟨n, hn', hs⟩

theorem getDetectionsLoop_no_stop (pages : Nat → Page) (sb ea : Option Nat) :
    ∀ (fuel a : Nat) (r : DetRow), r ∈ getDetectionsLoop pages sb ea a fuel →
      stopsAt sb ea r.timestamp = false := by
  intro fuel
  induction fuel with
  | zero =>
    intro a r hr
    simp [getDetectionsLoop] at hr
  | succ fuel ih =>
    intro a r hr
    rw [getDetectionsLoop] at hr
    by_cases h0 : (pages a).nodes.length = 0
    · simp [h0] at hr
    · simp only [h0, if_false] at hr
      by_cases h1 : ((scanNodes sb ea (pages a).nodes).2 || !(pages a).hasNextPage) = true
      · simp only [h1, if_true] at hr
        exact scanNodes_no_stop sb ea _ r hr
      · rw [Bool.not_eq_true] at h1
        simp only [h1, Bool.false_eq_true, if_false] at hr
        rcases List.mem_append.mp hr with hr | hr
        · exact scanNodes_no_stop sb ea _ r hr
        · exact ih (a + 1) r hr

theorem getDetectionsLoop_pages_le (pages : Nat → Page) (sb ea : Option Nat)
    (p : Nat) (hp : ∃ n ∈ (pages p).nodes, stopsAt sb ea n.timestamp = true) :
    ∀ (fuel a : Nat), a ≤ p → ∀ r ∈ getDetectionsLoop pages sb ea a fuel,
      ∃ q, a ≤ q ∧ q ≤ p ∧ r ∈ (pages q).nodes := by
  intro fuel
  induction fuel with
  | zero =>
    intro a _ r hr
    simp [getDetectionsLoop] at hr
  | succ fuel ih =>
    intro a ha r hr
    rw [getDetectionsLoop] at hr
    by_cases h0 : (pages a).nodes.length = 0
    · simp [h0] at hr
    · simp only [h0, if_false] at hr
      by_cases h1 : ((scanNodes sb ea (pages a).nodes).2 || !(pages a).hasNextPage) = true
      · simp only [h1, if_true] at hr
        exact ⟨a, le_rfl, ha, scanNodes_mem sb ea _ r hr⟩
      · rw [Bool.not_eq_true] at h1
        simp only [h1, Bool.false_eq_true, if_false] at hr
        rcases List.mem_append.mp hr with hr | hr
        · exact ⟨a, le_rfl, ha, scanNodes_mem sb ea _ r hr⟩
        · have hne : a ≠ p := by
            rintro rfl
            have hhit := scanNodes_hit sb ea _ hp
            rw [Bool.or_eq_false_iff] at h1
            rw [h1.1] at hhit
            exact Bool.false_ne_true hhit
          have ha1 : a + 1 ≤ p := Nat.lt_of_le_of_ne ha hne
          obtain ⟨q, hq1, hq2, hq3⟩ := ih (a + 1) ha1 r hr
          exact ⟨q, le_trans (Nat.le_succ a) hq1, hq2, hq3⟩

/-- C1: `get_detections` never returns a row at or before `stop_before` nor
strictly before `earliest_detection_at`; moreover, once a page contains a
node meeting a stop condition, every returned row comes from that page or
an earlier one — the hitting row itself and all subsequent pages are
excluded. -/
theorem get_detections_stop_conditions (pages : Nat → Page) (maxPages : Nat)
    (stopBefore earliest : Option Nat) :
    (∀ r ∈ get_detections pages maxPages stopBefore earliest,
        (∀ t, stopBefore = some t → t < r.timestamp) ∧
        (∀ e, earliest = some e → e ≤ r.timestamp)) ∧
    (∀ p, (∃ n ∈ (pages p).nodes, stopsAt stopBefore earliest n.timestamp = true) →
        ∀ r ∈ get_detections pages maxPages stopBefore earliest,
          ∃ q, q ≤ p ∧ r ∈ (pages q).nodes) := by
  constructor
  · intro r hr
    have h := getDetectionsLoop_no_stop pages stopBefore earliest maxPages 0 r hr
    rw [stopsAt.eq_def, Bool.or_eq_false_iff] at h
    obtain ⟨h1, h2⟩ := h
    constructor
    · rintro t rfl
      simp only [decide_eq_false_iff_not, Nat.not_le] at h1
      exact h1
    · rintro e rfl
      simp only [decide_eq_false_iff_not, Nat.not_lt] at h2
      exact h2
  · intro p hp r hr
    obtain ⟨q, _, hq2, hq3⟩ :=
      getDetectionsLoop_pages_le pages stopBefore earliest p hp maxPages 0
        (Nat.zero_le p) r hr
    exact ⟨q, hq2, hq3⟩

/-- Witness for C1: against `samplePages` with `stop_before = 10`, the row
with timestamp 30 is returned and its timestamp is above the boundary (the
boundary row with timestamp 10 and everything after it are dropped). -/
theorem get_detections_stop_conditions_witness : 10 < sampleN1.timestamp :=
  ((get_detections_stop_conditions samplePages 5 (some 10) none).1 sampleN1
    (by decide)).1 10 rfl

/-! Invariants of the detections merge. -/

/-- Counterexample to C2 as stated: a first run whose fetched rows repeat a
detection `id` (possible when pages shift during newest-first pagination)
is cached as-is — `sync_detections` only sorts, it does not dedup the
no-cache path — so the produced cache violates `id` uniqueness. -/
theorem sync_detections_invariant_counterexample :
    ¬ ((((sync_detections none [sampleRowA, sampleRowA2]).1.map
          (fun r => r.id)).Nodup) ∧
        List.Sorted tsLE (sync_detections none [sampleRowA, sampleRowA2]).1) := by
  decide

/-- C2 (amended): provided the fetched rows carry pairwise-distinct `id`s,
and any non-empty existing cache already satisfies the invariant, the cache
produced by `sync_detections` has pairwise-distinct `id` values and a
non-decreasing `timestamp` column.  (The merge path needs no hypotheses at
all: dedup-by-`id` plus sort re-establish the invariant.) -/
theorem sync_detections_invariant (cache : Option (List DetRow))
    (newData : List DetRow)
    (hcache : ∀ xs, cache = some xs →
        List.Sorted tsLE xs ∧ ((xs.map (fun r => r.id)).Nodup))
    (hnew : ((newData.map (fun r => r.id)).Nodup)) :
    List.Sorted tsLE (sync_detections cache newData).1 ∧
    (((sync_detections cache newData).1.map (fun r => r.id)).Nodup) := by
  have hsort : ∀ m : List DetRow,
      ((m.map (fun r => r.id)).Nodup) →
      (((List.insertionSort tsLE m).map (fun r => r.id)).Nodup) := by
    intro m hm
    exact (((List.perm_insertionSort tsLE m).map (fun r => r.id)).nodup_iff).mpr hm
  show List.Sorted tsLE (merge_detections cache newData) ∧
      (((merge_detections cache newData).map (fun r => r.id)).Nodup)
  cases cache with
  | none =>
    rw [merge_detections]
    by_cases h : 0 < newData.length
    · rw [if_pos h]
      exact ⟨List.sorted_insertionSort tsLE newData, hsort newData hnew⟩
    · rw [if_neg h]
      have : newData = [] := List.length_eq_zero.mp (Nat.eq_zero_of_not_pos h)
      subst this
      exact ⟨List.sorted_nil, List.nodup_nil⟩
  | some xs =>
    rw [merge_detections]
    by_cases hx : 0 < xs.length
    · rw [if_pos hx]
      by_cases hn : 0 < newData.length
      · rw [if_pos hn]
        refine ⟨List.sorted_insertionSort tsLE _, hsort _ ?_⟩
        exact nodup_keys_dedupKeepLastBy (fun r : DetRow => r.id) (xs ++ newData)
      · rw [if_neg hn]
        exact hcache xs rfl
    · rw [if_neg hx]
      by_cases hn : 0 < newData.length
      · rw [if_pos hn]
        exact ⟨List.sorted_insertionSort tsLE newData, hsort newData hnew⟩
      · rw [if_neg hn]
        have : newData = [] := List.length_eq_zero.mp (Nat.eq_zero_of_not_pos hn)
        subst this
        exact ⟨List.sorted_nil, List.nodup_nil⟩

/-- Witness for C2 (amended) at a concrete first run. -/
theorem sync_detections_invariant_witness :
    List.Sorted tsLE (sync_detections none [sampleRowA]).1 ∧
    (((sync_detections none [sampleRowA]).1.map (fun r => r.id)).Nodup) :=
  sync_detections_invariant none [sampleRowA] (fun _ h => nomatch h) (by decide)

/-- C3: re-running the sync over a non-empty cache when the fetch returns
zero rows returns the cached rows unchanged, in order, and (re)writes
exactly that content. -/
theorem sync_detections_idempotent_empty_fetch (xs : List DetRow)
    (hxs : xs ≠ []) : sync_detections (some xs) [] = (xs, some xs) := by
  have h : 0 < xs.length := List.length_pos.mpr hxs
  simp [sync_detections, merge_detections, h]

/-- Witness for C3. -/
theorem sync_detections_idempotent_empty_fetch_witness :
    sync_detections (some [sampleRowA]) [] = ([sampleRowA], some [sampleRowA]) :=
  sync_detections_idempotent_empty_fetch [sampleRowA] (by decide)

/-- C4: an empty merge result is never written — the cache file stays
exactly as it was — and a write happens exactly when the merged table is
non-empty, in which case the file holds the merged rows. -/
theorem sync_detections_no_empty_write (cache : Option (List DetRow))
    (newData : List DetRow) :
    ((sync_detections cache newData).1 = [] →
        (sync_detections cache newData).2 = cache) ∧
    ((sync_detections cache newData).1 ≠ [] →
        (sync_detections cache newData).2 = some ((sync_detections cache newData).1)) := by
  constructor
  · intro h
    have h' : merge_detections cache newData = [] := h
    simp [sync_detections, h']
  · intro h
    have h' : merge_detections cache newData ≠ [] := h
    have hlen : 0 < (merge_detections cache newData).length := List.length_pos.mpr h'
    simp [sync_detections, hlen]

/-- Witness for C4: a first run with an empty fetch leaves the (absent)
file untouched; a non-empty merge writes the merged rows. -/
theorem sync_detections_no_empty_write_witness :
    (sync_detections none ([] : List DetRow)).2 = none ∧
    (sync_detections none [sampleRowA]).2 = some ((sync_detections none [sampleRowA]).1) :=
  ⟨(sync_detections_no_empty_write none []).1 rfl,
   (sync_detections_no_empty_write none [sampleRowA]).2 (by decide)⟩

/-- C5: `sync_species_probabilities` returns the cache with no network call
while the file is under 7 days old; otherwise it fetches and fully replaces
the cache, except that an empty fetch leaves the existing file untouched
(and an absent file stays absent). -/
theorem sync_species_probabilities_policy (cache : Option (List ProbRow × Nat))
    (fetched : List ProbRow) :
    (∀ rows age, cache = some (rows, age) → age < 7 * 86400 →
        sync_species_probabilities cache fetched = ⟨rows, some rows, false⟩) ∧
    (∀ rows age, cache = some (rows, age) → 7 * 86400 ≤ age →
        sync_species_probabilities cache fetched =
          ⟨fetched, if 0 < fetched.length then some fetched else some rows, true⟩) ∧
    (cache = none →
        sync_species_probabilities cache fetched =
          ⟨fetched, if 0 < fetched.length then some fetched else none, true⟩) := by
  refine ⟨?_, ?_, ?_⟩
  · rintro rows age rfl hage
    simp [sync_species_probabilities, hage]
  · rintro rows age rfl hage
    simp [sync_species_probabilities, Nat.not_lt.mpr hage]
  · rintro rfl
    simp [sync_species_probabilities]

/-- Witness for C5: a one-day-old cache is returned unchanged without a
network call. -/
theorem sync_species_probabilities_policy_witness :
    sync_species_probabilities (some ([sampleProbRow], 86400)) [] =
      ⟨[sampleProbRow], some [sampleProbRow], false⟩ :=
  (sync_species_probabilities_policy (some ([sampleProbRow], 86400)) []).1
    [sampleProbRow] 86400 rfl (by decide)

/-- C6: `compute_top_species` on a zero-row detections table returns a
zero-row table carrying exactly the full 14-column output schema with the
documented types, whatever the metadata, period and limit arguments are. -/
theorem compute_top_species_empty_schema (now : Nat)
    (species_meta : List MetaRow) (periodDays : Option Nat) (limit : Nat) :
    compute_top_species now [] species_meta periodDays limit =
      ⟨[("speciesId", DType.utf8), ("commonName", DType.utf8),
        ("scientificName", DType.utf8), ("imageUrl", DType.utf8),
        ("thumbnailUrl", DType.utf8), ("color", DType.utf8),
        ("ebirdUrl", DType.utf8), ("wikipediaSummary", DType.utf8),
        ("count", DType.int64), ("almostCertain", DType.int64),
        ("veryLikely", DType.int64), ("uncertain", DType.int64),
        ("unlikely", DType.int64), ("averageProbability", DType.float64)], []⟩ :=
  rfl

/-- Counterexample to C9 as stated: the dedup of the bulk+residual
concatenation is Polars `unique(subset=["speciesId"])` with the default
`keep="any"`, whose contract does not pin the survivor; keeping the
residual row instead of the bulk row is an admissible outcome, so "the bulk
row wins, for every pair of inputs" is not guaranteed by the code. -/
theorem sync_species_meta_first_wins_counterexample :
    ¬ (∀ out : List MetaRow,
        isPolarsUniqueAnyBySpeciesId ([bulkMetaRow] ++ [residualMetaRow]) out →
        ∀ r ∈ out, r.speciesId = bulkMetaRow.speciesId → r = bulkMetaRow) := by
  intro hclaim
  have h := hclaim [residualMetaRow] (by decide) residualMetaRow (by decide) (by decide)
  exact absurd h (by decide)

/-- C9 (amended): the merge keeps exactly one row per `speciesId`, each
drawn from the concatenated bulk-then-residual rows and covering every
concatenated `speciesId`; keeping the first occurrence (bulk wins) is an
admissible outcome of `unique(keep="any")`, but not the guaranteed one. -/
theorem sync_species_meta_merge_unique (meta extra : List MetaRow) :
    isPolarsUniqueAnyBySpeciesId (meta ++ extra)
      (dedupKeepFirstBy (fun r : MetaRow => r.speciesId) (meta ++ extra)) := by
  refine ⟨?_, ?_, ?_⟩
  · exact nodup_keys_dedupKeepFirstBy _ (meta ++ extra)
  · intro r hr
    exact mem_of_mem_dedupKeepFirstBy _ (meta ++ extra) r hr
  · intro r hr
    exact exists_key_dedupKeepFirstBy _ (meta ++ extra) r hr

/-- C10: an empty `topSpecies` listing makes `get_top_species` return the
untyped `pl.DataFrame([])` — zero rows *and zero columns* — while the other
five fetchers return explicitly-typed zero-row frames with their full
column sets on an empty response. -/
theorem get_top_species_empty_untyped :
    (get_top_species [] = ⟨[], []⟩) ∧
    (∀ (pages : Nat → Page) (maxPages : Nat) (sb ea : Option Nat),
        get_detections pages maxPages sb ea = [] →
        get_detections_frame pages maxPages sb ea =
          ⟨[("id", DType.utf8), ("timestamp", DType.utf8),
            ("speciesId", DType.utf8), ("commonName", DType.utf8),
            ("scientificName", DType.utf8), ("confidence", DType.float64),
            ("probability", DType.float64), ("score", DType.float64),
            ("certainty", DType.utf8)], []⟩) ∧
    (∀ (pages : Nat → EnvPage) (maxPages : Nat),
        getEnvNodes pages 0 maxPages = [] →
        get_environment_history pages maxPages =
          ⟨[("timestamp", DType.utf8), ("temperature", DType.float64),
            ("humidity", DType.float64), ("barometricPressure", DType.float64),
            ("soundPressureLevel", DType.float64), ("aqi", DType.float64),
            ("eco2", DType.float64), ("voc", DType.float64)], []⟩) ∧
    (get_daily_detection_counts [] =
        ⟨[("date", DType.utf8), ("dayOfYear", DType.int64),
          ("dailyTotal", DType.int64), ("speciesId", DType.utf8),
          ("commonName", DType.utf8), ("count", DType.int64)], []⟩) ∧
    (get_time_of_day_counts [] =
        ⟨[("speciesId", DType.utf8), ("commonName", DType.utf8),
          ("totalCount", DType.int64), ("hour", DType.float64),
          ("count", DType.int64)], []⟩) ∧
    (get_species_probabilities [] =
        ⟨[("speciesId", DType.utf8), ("commonName", DType.utf8),
          ("week", DType.int64), ("probability", DType.float64)], []⟩) := by
  refine ⟨rfl, ?_, ?_, rfl, rfl, rfl⟩
  · intro pages maxPages sb ea h
    simp [get_detections_frame, h, detectionsEmptySchema]
  · intro pages maxPages h
    simp [get_environment_history, h, environmentEmptySchema]

/-- Witness for C10 at concrete empty servers. -/
theorem get_top_species_empty_untyped_witness :
    get_detections_frame emptyPages 3 none none =
      ⟨[("id", DType.utf8), ("timestamp", DType.utf8), ("speciesId", DType.utf8),
        ("commonName", DType.utf8), ("scientificName", DType.utf8),
        ("confidence", DType.float64), ("probability", DType.float64),
        ("score", DType.float64), ("certainty", DType.utf8)], []⟩ ∧
    get_environment_history emptyEnvPages 3 =
      ⟨[("timestamp", DType.utf8), ("temperature", DType.float64),
        ("humidity", DType.float64), ("barometricPressure", DType.float64),
        ("soundPressureLevel", DType.float64), ("aqi", DType.float64),
        ("eco2", DType.float64), ("voc", DType.float64)], []⟩ :=
  ⟨get_top_species_empty_untyped.2.1 emptyPages 3 none none rfl,
   get_top_species_empty_untyped.2.2.1 emptyEnvPages 3 rfl⟩

/-! Lemmas for the daily-counts aggregation. -/

theorem find?_keyed_map {κ : Type} [DecidableEq κ] (f : κ → Nat) :
    ∀ (ds : List κ) (d : κ), d ∈ ds →
      (ds.map (fun k => (k, f k))).find? (fun p => decide (p.1 = d)) =
        some (d, f d) := by
  intro ds
  induction ds with
  | nil =>
    intro d hd
    simp at hd
  | cons k ks ih =>
    intro d hd
    by_cases hk : k = d
    · subst hk
      simp [List.find?_cons]
    · have hd' : d ∈ ks := by
        rcases List.mem_cons.mp hd with h | h
        · exact absurd h.symm hk
        · exact h
      simp [List.find?_cons, hk, ih d hd']

theorem dailyJoinRow_total (sd : List DailySpeciesRow) (s : DailySpeciesRow)
    (hs : s ∈ sd) : (dailyJoinRow sd s).dailyTotal = dailySum sd s.date := by
  have hdate : s.date ∈ dedupKeepFirstBy (fun d : Nat => d)
      (sd.map (fun t => t.date)) := by
    obtain ⟨y, hy, hky⟩ := exists_key_dedupKeepFirstBy (fun d : Nat => d)
      (sd.map (fun t => t.date)) s.date (List.mem_map_of_mem _ hs)
    exact hky ▸ hy
  show ((((dailyTotalsOf sd).find? (fun p => decide (p.1 = s.date))).map
      (fun p => p.2)).getD 0) = dailySum sd s.date
  rw [dailyTotalsOf, find?_keyed_map (dailySum sd) _ s.date hdate]
  rfl

theorem dailyJoin_sorted_total (sd : List DailySpeciesRow) (r : DailyRow)
    (hr : r ∈ List.insertionSort dailyLE (dailyJoin sd)) :
    (((List.insertionSort dailyLE (dailyJoin sd)).filter
        (fun s => decide (s.date = r.date))).map (fun s => s.count)).sum =
      r.dailyTotal := by
  have hperm : (List.insertionSort dailyLE (dailyJoin sd)).Perm (dailyJoin sd) :=
    List.perm_insertionSort dailyLE (dailyJoin sd)
  have hr' : r ∈ dailyJoin sd := hperm.mem_iff.mp hr
  obtain ⟨s, hs, hrs⟩ := List.mem_map.mp hr'
  subst hrs
  have hsum : (((List.insertionSort dailyLE (dailyJoin sd)).filter
        (fun x => decide (x.date = (dailyJoinRow sd s).date))).map
        (fun x => x.count)).sum =
      (((dailyJoin sd).filter
        (fun x => decide (x.date = (dailyJoinRow sd s).date))).map
        (fun x => x.count)).sum :=
    ((hperm.filter _).map _).sum_eq
  rw [hsum, dailyJoin, List.filter_map (dailyJoinRow sd) sd, List.map_map,
    dailyJoinRow_total sd s hs]
  rfl

/-- C7: in every output of `compute_daily_detection_counts`, the `count`
values of the rows sharing a date sum to the `dailyTotal` carried by each
of those rows. -/
theorem compute_daily_detection_counts_daily_total (now : Nat)
    (detections : List DetRow) (periodDays : Option Nat) (r : DailyRow)
    (hr : r ∈ compute_daily_detection_counts now detections periodDays) :
    (((compute_daily_detection_counts now detections periodDays).filter
        (fun s => decide (s.date = r.date))).map (fun s => s.count)).sum =
      r.dailyTotal := by
  by_cases h0 : detections.length = 0
  · rw [compute_daily_detection_counts, if_pos h0] at hr
    simp at hr
  · by_cases h1 : (dailyFilter now periodDays detections).length = 0
    · rw [compute_daily_detection_counts, if_neg h0, if_pos h1] at hr
      simp at hr
    · have hout : compute_daily_detection_counts now detections periodDays =
          List.insertionSort dailyLE
            (dailyJoin (dailySpeciesOf (dailyFilter now periodDays detections))) := by
        rw [compute_daily_detection_counts, if_neg h0, if_neg h1]
      rw [hout] at hr ⊢
      exact dailyJoin_sorted_total _ r hr

/-- Witness for C7 on a one-detection input. -/
theorem compute_daily_detection_counts_daily_total_witness :
    (((compute_daily_detection_counts 0 [sampleRowA] none).filter
        (fun s => decide (s.date = sampleDailyRow.date))).map
      (fun s => s.count)).sum = sampleDailyRow.dailyTotal :=
  compute_daily_detection_counts_daily_total 0 [sampleRowA] none
    sampleDailyRow (by decide)

/-! Lemmas for the retry loop. -/

theorem backoffsFrom_succ (a k : Nat) :
    backoffsFrom a (k + 1) = 2 ^ a :: backoffsFrom (a + 1) k := by
  rw [backoffsFrom, backoffsFrom, List.range_succ_eq_map]
  simp only [List.map_cons, List.map_map, Nat.add_zero]
  congr 1
  apply List.map_congr_left
  intro i _
  simp only [Function.comp_apply]
  congr 1
  omega

theorem queryLoop_reaches (outcomes : Nat → AttemptOutcome) :
    ∀ (k a remaining : Nat), k < remaining →
      (∀ i, i < k → outcomes (a + i) = .transient) →
      (∀ d, outcomes (a + k) = .success d →
          queryLoop outcomes a remaining = (.ok (some d), backoffsFrom a k)) ∧
      (∀ e, outcomes (a + k) = .graphqlErrors e →
          queryLoop outcomes a remaining = (.error (.fatal e), backoffsFrom a k)) ∧
      (outcomes (a + k) = .httpError →
          queryLoop outcomes a remaining = (.error .http, backoffsFrom a k)) ∧
      (outcomes (a + k) = .transient → k + 1 = remaining →
          queryLoop outcomes a remaining = (.error .transport, backoffsFrom a k)) := by
  intro k
  induction k with
  | zero =>
    intro a remaining hk _
    obtain ⟨rem, rfl⟩ : ∃ rem, remaining = rem + 1 := ⟨remaining - 1, by omega⟩
    refine ⟨?_, ?_, ?_, ?_⟩
    · intro d hd
      rw [Nat.add_zero] at hd
      simp [queryLoop, hd, backoffsFrom]
    · intro e he
      rw [Nat.add_zero] at he
      simp [queryLoop, he, backoffsFrom]
    · intro hh
      rw [Nat.add_zero] at hh
      simp [queryLoop, hh, backoffsFrom]
    · intro ht hrem
      rw [Nat.add_zero] at ht
      have : rem = 0 := by omega
      subst this
      simp [queryLoop, ht, backoffsFrom]
  | succ k ih =>
    intro a remaining hk htr
    obtain ⟨rem, rfl⟩ : ∃ rem, remaining = rem + 1 := ⟨remaining - 1, by omega⟩
    have h0 : outcomes a = .transient := by
      have := htr 0 (Nat.succ_pos k)
      rwa [Nat.add_zero] at this
    have hrem0 : rem ≠ 0 := by omega
    have hkrem : k < rem := by omega
    have htr' : ∀ i, i < k → outcomes (a + 1 + i) = .transient := by
      intro i hi
      have := htr (i + 1) (Nat.succ_lt_succ hi)
      rwa [show a + (i + 1) = a + 1 + i by omega] at this
    obtain ⟨s1, s2, s3, s4⟩ := ih (a + 1) rem hkrem htr'
    have hshift : a + (k + 1) = a + 1 + k := by omega
    refine ⟨?_, ?_, ?_, ?_⟩
    · intro d hd
      rw [hshift] at hd
      simp [queryLoop, h0, hrem0, s1 d hd, backoffsFrom_succ]
    · intro e he
      rw [hshift] at he
      simp [queryLoop, h0, hrem0, s2 e he, backoffsFrom_succ]
    · intro hh
      rw [hshift] at hh
      simp [queryLoop, h0, hrem0, s3 hh, backoffsFrom_succ]
    · intro ht hrem
      rw [hshift] at ht
      have : k + 1 = rem := by omega
      simp [queryLoop, h0, hrem0, s4 ht this, backoffsFrom_succ]

/-- C8: `query_graphql` retries only transient transport failures, sleeping
`2^attempt` seconds between attempts; after `k` transient failures a
success returns the data, a GraphQL-level error payload or an HTTP error
status is raised immediately as fatal (never retried), and the transport
error of the final allowed attempt is re-raised. -/
theorem query_graphql_retry_policy (outcomes : Nat → AttemptOutcome)
    (retries k : Nat) (hk : k < retries)
    (htr : ∀ i, i < k → outcomes i = .transient) :
    (∀ d, outcomes k = .success d →
        query_graphql outcomes retries = (.ok (some d), backoffs k)) ∧
    (∀ e, outcomes k = .graphqlErrors e →
        query_graphql outcomes retries = (.error (.fatal e), backoffs k)) ∧
    (outcomes k = .httpError →
        query_graphql outcomes retries = (.error .http, backoffs k)) ∧
    (outcomes k = .transient → k + 1 = retries →
        query_graphql outcomes retries = (.error .transport, backoffs k)) := by
  have h := queryLoop_reaches outcomes k 0 retries hk (by simpa using htr)
  simpa [query_graphql, backoffs] using h

/-- Witness for C8: a timeout on attempt 0, then a GraphQL error payload on
attempt 1 — one 1-second back-off, then an immediate fatal error. -/
theorem query_graphql_retry_policy_witness :
    query_graphql sampleOutcomes 3 = (.error (.fatal "bad query"), [1]) := by
  have h := (query_graphql_retry_policy sampleOutcomes 3 1 (by decide)
    (fun i hi => by
      have hi0 : i = 0 := by omega
      subst hi0
      rfl)).2.1 "bad query" rfl
  exact h

end BirdWeather
